import Mathlib

/-!
Verification of the portfolio_checker repository's refresh/cache/history
engine against its natural-language specification.

The sources shipped with the repository are the React frontend
(portfolio-frontend/src/app/page.tsx), the shell launcher, and the
architecture document embedded after the frontend component (the document
carries the backend reference implementation snippets: get_positions_value,
the balanceHistory append, and the documented HTTP response shapes).
The Rust backend (portfolio-backend) itself is not among the sources, so
the coordinator merge step and the cached endpoint are modelled from the
spec where noted; everything else below is translated from the sources.

Numeric values (JS numbers / Python floats / SQL decimals) are modelled as
rationals, timestamps as naturals, JS objects (Record) as association
lists keyed by String.
-/

namespace PortfolioChecker

/-- WalletData, page.tsx lines 19-25: the per-wallet record the frontend
receives and displays. -/
structure WalletData where
  proxy_address : String
  usdc_balance : ℚ
  positions_value : ℚ
  portfolio_total : ℚ
  last_updated : ℕ
deriving DecidableEq, Repr

/-- HistoryEntry, page.tsx lines 27-31: one charting sample; wallets is a
Record from string key to number. -/
structure HistoryEntry where
  timestamp : ℕ
  total : ℚ
  wallets : List (String × ℚ)
deriving DecidableEq, Repr

/-- WalletConfig, page.tsx lines 33-37. -/
structure WalletConfig where
  wallet_id : String
  name : String
  proxy_address : String
deriving DecidableEq, Repr

/-- page.tsx line 123: wallets.reduce over portfolio_total starting at 0. -/
def totalPortfolio (ws : List WalletData) : ℚ :=
  ws.foldl (fun sum w => sum + w.portfolio_total) 0

/-- page.tsx line 124: wallets.reduce over usdc_balance starting at 0. -/
def totalUsdc (ws : List WalletData) : ℚ :=
  ws.foldl (fun sum w => sum + w.usdc_balance) 0

/-- page.tsx line 125: wallets.reduce over positions_value starting at 0. -/
def totalPositions (ws : List WalletData) : ℚ :=
  ws.foldl (fun sum w => sum + w.positions_value) 0

/-- BalanceSample, spec section 3: the committed per-wallet value. -/
structure BalanceSample where
  proxyAddress : String
  usdcBalance : ℚ
  positionsValue : ℚ
  portfolioTotal : ℚ
  stale : Bool
  observedAt : ℕ
deriving DecidableEq, Repr

/-- Modelled from the spec: RefreshCoordinator.refresh step 4 (the merge of
one wallet's two fetch results with the previous cache entry); the backend
implementing it (portfolio-backend) is missing from the sources.
Per the spec: both succeed gives a fresh sample with the total recomputed;
one failure reuses the previous cached value for the failed leg, recomputes
the total from the mix, and flags the sample stale; a wallet with no fresh
leg and no previous cache entry is excluded (none). -/
def mergeWallet (addr : String) (prev : Option BalanceSample)
    (bal pos : Option ℚ) (now : ℕ) : Option BalanceSample :=
  match bal, pos with
  | some b, some p => some ⟨addr, b, p, b + p, false, now⟩
  | some b, none =>
      match prev with
      | some c => some ⟨addr, b, c.positionsValue, b + c.positionsValue, true, now⟩
      | none => none
  | none, some p =>
      match prev with
      | some c => some ⟨addr, c.usdcBalance, p, c.usdcBalance + p, true, now⟩
      | none => none
  | none, none =>
      match prev with
      | some c =>
          some ⟨addr, c.usdcBalance, c.positionsValue,
            c.usdcBalance + c.positionsValue, true, now⟩
      | none => none

/-- JS slice(-k): the last at-most-k elements of the array. -/
def sliceLast {α : Type} (k : ℕ) (l : List α) : List α :=
  l.drop (l.length - k)

/-- One balanceHistory append (page.tsx, architecture document section
7.1): the new buffer is the spread of prev.slice(-499) followed by the new
entry, i.e. the last at-most-499 previous entries plus one. -/
def appendHistory {α : Type} (prev : List α) (e : α) : List α :=
  sliceLast 499 prev ++ [e]

/-- A sequence of balanceHistory appends starting from a given buffer. -/
def appendAll {α : Type} (start es : List α) : List α :=
  es.foldl appendHistory start

/-- The two refresh trigger paths of the frontend plus cycle completion,
from page.tsx: the header button (lines 184-190), the interval timer
(line 119), and the end of refreshData's finally clause (line 113). -/
inductive UiEvent where
  | timerFire : UiEvent
  | buttonClick : UiEvent
  | complete : UiEvent
deriving DecidableEq, Repr

/-- The frontend triggering state: the loading flag (page.tsx line 57) and
the number of refresh cycles currently in flight. -/
structure UiState where
  loading : Bool
  inFlight : ℕ
deriving DecidableEq, Repr

/-- Initial frontend state: loading false (page.tsx line 57), nothing in
flight. -/
def uiInit : UiState := ⟨false, 0⟩

/-- One step of the frontend triggering behaviour (page.tsx lines 96-121
and 184-190): timerFire always starts a refresh cycle (setInterval invokes
refreshData with no in-flight guard, and refreshData itself never checks
loading); buttonClick starts one only when the button is enabled (it is
disabled exactly while loading); complete finishes one in-flight cycle,
whose finally clause sets loading back to false. -/
def uiStep (s : UiState) : UiEvent → Option UiState
  | .timerFire => some ⟨true, s.inFlight + 1⟩
  | .buttonClick => if s.loading then none else some ⟨true, s.inFlight + 1⟩
  | .complete => if s.inFlight = 0 then none else some ⟨false, s.inFlight - 1⟩

/-- Run a sequence of trigger events from a state; none when some event in
the sequence is not enabled. -/
def uiRun (s : UiState) : List UiEvent → Option UiState
  | [] => some s
  | e :: es => (uiStep s e).bind (fun s2 => uiRun s2 es)

/-- The single-flight invariant: the in-flight count matches the loading
flag and never exceeds one. -/
def uiInv (s : UiState) : Prop :=
  s.inFlight = if s.loading then 1 else 0

/-- Dynamic values as decoded from JSON by the Python backend snippets and
by the frontend. -/
inductive PyVal where
  | num : ℚ → PyVal
  | pstr : String → PyVal
  | pbool : Bool → PyVal
  | pynone : PyVal
  | list : List PyVal → PyVal
  | dict : List (String × PyVal) → PyVal

/-- The Python exception kinds get_positions_value can raise. -/
inductive PyError where
  | typeError : PyError
  | valueError : PyError
deriving DecidableEq, Repr

/-- Python float(x): numbers convert, bools convert to 0 or 1; None and
container shapes raise TypeError; strings are modelled as raising
ValueError (the positions API returns numeric value fields, and no theorem
below depends on numeric-string parsing). -/
def floatPy : PyVal → Except PyError ℚ
  | .num q => .ok q
  | .pbool b => .ok (if b then 1 else 0)
  | .pstr _ => .error .valueError
  | .pynone => .error .typeError
  | .list _ => .error .typeError
  | .dict _ => .error .typeError

/-- Python dict.get(k) with default None. -/
def dictGet (d : List (String × PyVal)) (k : String) : PyVal :=
  (d.lookup k).getD .pynone

/-- The for-loop of get_positions_value over a list response: the first
dict item containing a value key is converted with float and returned;
otherwise the loop falls through and the function returns None. -/
def firstValueItem : List PyVal → Except PyError (Option ℚ)
  | [] => .ok none
  | .dict d :: rest =>
      if (d.lookup "value").isSome then (floatPy (dictGet d "value")).map some
      else firstValueItem rest
  | _ :: rest => firstValueItem rest

/-- get_positions_value from the architecture document (page.tsx, document
section 3.2), applied to an already-received response with the given
status code and decoded JSON body: a non-200 status returns None; a list
body is scanned for the first dict with a value key; a dict body converts
float of data.get under key value — raising TypeError when the key is
absent, since data.get then yields None; any other body shape returns
None. Transport-level exceptions raised by requests.get itself are outside
this model. -/
def get_positions_value (status : ℕ) (data : PyVal) :
    Except PyError (Option ℚ) :=
  if status ≠ 200 then .ok none
  else
    match data with
    | .list items => firstValueItem items
    | .dict d => (floatPy (dictGet d "value")).map some
    | _ => .ok none

/-- The documented response of the manual refresh endpoint (page.tsx,
architecture document section 6.3): success, saved_count, timestamp. -/
def refreshResponseDoc : List (String × PyVal) :=
  [("success", .pbool true), ("saved_count", .num 2),
   ("timestamp", .pstr "2024-01-01T12:00:00")]

/-- An outbound HTTP request as issued by the frontend. -/
structure HttpRequest where
  method : String
  url : String
deriving DecidableEq, Repr

/-- The fetch API invoked with a URL and no request-init object, which
defaults the method to GET. -/
def fetchDefault (u : String) : HttpRequest := ⟨"GET", u⟩

/-- page.tsx line 7: the backend base URL (default fallback). -/
def API_BASE : String := "http://localhost:8405"

/-- The request refreshData issues to trigger a refresh (page.tsx line 99):
fetch on the refresh URL with no init object. -/
def refreshRequest : HttpRequest :=
  fetchDefault (API_BASE ++ "/api/portfolio/refresh")

/-- The forEach loop of chartData (page.tsx lines 145-149), carrying the
running 1-based series index: for each configured wallet, if the history
entry's wallets record has a value under the config's proxy_address, the
chart row gets a wallet_(idx+1) series value; otherwise the config
contributes nothing. -/
def chartEntryWalletsAux (i : ℕ) :
    List WalletConfig → HistoryEntry → List (String × ℚ)
  | [], _ => []
  | cfg :: cfgs, h =>
      match h.wallets.lookup cfg.proxy_address with
      | some v => ("wallet_" ++ toString (i + 1), v) ::
          chartEntryWalletsAux (i + 1) cfgs h
      | none => chartEntryWalletsAux (i + 1) cfgs h

/-- The wallet series fields of one chartData row (page.tsx lines
139-152). -/
def chartEntryWallets (cfgs : List WalletConfig) (h : HistoryEntry) :
    List (String × ℚ) :=
  chartEntryWalletsAux 0 cfgs h

/-- Modelled from the spec: the cached endpoint response (spec section 6),
wallets plus aggregate totals and the last refresh time, assembled from
the PortfolioCache without any network call; the backend
(portfolio-backend) serving it is missing from the sources. A total
function: every cache state, including the empty one, yields a response
and no error. -/
structure CachedResponse where
  wallets : List WalletData
  total_portfolio : ℚ
  total_usdc_balance : ℚ
  total_positions_value : ℚ
  last_refresh_time : Option ℕ
deriving DecidableEq, Repr

/-- Modelled from the spec: GET api-portfolio-cached built from the cache
contents (spec section 6 response shape). -/
def cachedEndpoint (cache : List WalletData) : CachedResponse :=
  ⟨cache, totalPortfolio cache, totalUsdc cache, totalPositions cache,
    (cache.map (fun w => w.last_updated)).max?⟩

/-- The frontend state loadCachedData touches. -/
structure FrontendState where
  wallets : List WalletData
  lastUpdated : Option ℕ
deriving DecidableEq, Repr

/-- loadCachedData's handling of the cached response (page.tsx lines
77-86): walletList is data.wallets with [] as fallback, setWallets stores
it, and lastUpdated is set to the greatest last_updated only when the list
is nonempty. -/
def loadCachedApply (respWallets : Option (List WalletData))
    (st : FrontendState) : FrontendState :=
  let walletList := respWallets.getD []
  { wallets := walletList,
    lastUpdated :=
      if walletList.length > 0 then
        some (walletList.foldl (fun m w => max m w.last_updated) 0)
      else st.lastUpdated }

/-! ## Theorems -/

theorem foldl_add_eq_sum (f : WalletData → ℚ) (ws : List WalletData) (a : ℚ) :
    ws.foldl (fun sum w => sum + f w) a = a + (ws.map f).sum := by
  induction ws generalizing a with
  | nil => simp
  | cons w ws ih => simp [List.foldl_cons, ih, add_assoc]

theorem totalPortfolio_eq_sum (ws : List WalletData) :
    totalPortfolio ws = (ws.map (fun w => w.portfolio_total)).sum := by
  simp [totalPortfolio, foldl_add_eq_sum]

theorem totalUsdc_eq_sum (ws : List WalletData) :
    totalUsdc ws = (ws.map (fun w => w.usdc_balance)).sum := by
  simp [totalUsdc, foldl_add_eq_sum]

theorem totalPositions_eq_sum (ws : List WalletData) :
    totalPositions ws = (ws.map (fun w => w.positions_value)).sum := by
  simp [totalPositions, foldl_add_eq_sum]

/-- C10: for every wallet list, each displayed aggregate is the sum of the
corresponding per-wallet field, and whenever every sample satisfies
portfolio_total = usdc_balance + positions_value, the displayed total
portfolio equals displayed total USDC plus displayed total positions. -/
theorem displayed_totals_are_sums (ws : List WalletData) :
    totalPortfolio ws = (ws.map (fun w => w.portfolio_total)).sum ∧
    totalUsdc ws = (ws.map (fun w => w.usdc_balance)).sum ∧
    totalPositions ws = (ws.map (fun w => w.positions_value)).sum ∧
    ((∀ w ∈ ws, w.portfolio_total = w.usdc_balance + w.positions_value) →
      totalPortfolio ws = totalUsdc ws + totalPositions ws) := by
  refine ⟨totalPortfolio_eq_sum ws, totalUsdc_eq_sum ws,
    totalPositions_eq_sum ws, ?_⟩
  intro h
  rw [totalPortfolio_eq_sum, totalUsdc_eq_sum, totalPositions_eq_sum]
  induction ws with
  | nil => simp
  | cons w ws ih =>
    simp only [List.map_cons, List.sum_cons]
    rw [h w (List.mem_cons_self w ws),
      ih (fun x hx => h x (List.mem_cons_of_mem w hx))]
    ring

/-- Witness for C10 at a concrete two-wallet list. -/
theorem displayed_totals_are_sums_witness :
    totalPortfolio
        [⟨"0xA", 100, 50, 100 + 50, 0⟩, ⟨"0xB", 7, 3, 7 + 3, 0⟩] =
      totalUsdc [⟨"0xA", 100, 50, 100 + 50, 0⟩, ⟨"0xB", 7, 3, 7 + 3, 0⟩] +
        totalPositions [⟨"0xA", 100, 50, 100 + 50, 0⟩, ⟨"0xB", 7, 3, 7 + 3, 0⟩] :=
  (displayed_totals_are_sums
      [⟨"0xA", 100, 50, 100 + 50, 0⟩, ⟨"0xB", 7, 3, 7 + 3, 0⟩]).2.2.2
    (by simp)

/-- C1: every wallet sample the merge step commits (and hence every sample
the frontend later displays field-for-field) has its portfolio total equal
to the sum of its own usdcBalance and positionsValue fields — the total is
recomputed from the committed legs in every branch, whatever the previous
cache held. -/
theorem committed_sample_total_invariant (addr : String)
    (prev : Option BalanceSample) (bal pos : Option ℚ) (now : ℕ)
    (s : BalanceSample) (h : mergeWallet addr prev bal pos now = some s) :
    s.portfolioTotal = s.usdcBalance + s.positionsValue := by
  cases bal <;> cases pos <;> cases prev <;>
    simp [mergeWallet] at h <;> subst h <;> rfl

/-- Witness for C1: a successful two-leg fetch at concrete values. -/
theorem committed_sample_total_invariant_witness :
    (⟨"0xA", 100, 50, 100 + 50, false, 7⟩ : BalanceSample).portfolioTotal =
      (⟨"0xA", 100, 50, 100 + 50, false, 7⟩ : BalanceSample).usdcBalance +
        (⟨"0xA", 100, 50, 100 + 50, false, 7⟩ : BalanceSample).positionsValue :=
  committed_sample_total_invariant "0xA" none (some 100) (some 50) 7
    ⟨"0xA", 100, 50, 100 + 50, false, 7⟩ rfl

/-- C4: if exactly one leg fails and a previous cache entry exists, the
merge reuses the cached value for the failed leg, recomputes the total
from the mix, and flags the sample stale; if both legs fail and no
previous cache entry exists, the wallet is excluded from the commit (none,
not zero). -/
theorem merge_partial_failure_semantics (addr : String) (c : BalanceSample)
    (b p : ℚ) (now : ℕ) :
    mergeWallet addr (some c) (some b) none now =
      some ⟨addr, b, c.positionsValue, b + c.positionsValue, true, now⟩ ∧
    mergeWallet addr (some c) none (some p) now =
      some ⟨addr, c.usdcBalance, p, c.usdcBalance + p, true, now⟩ ∧
    mergeWallet addr none none none now = none :=
  ⟨rfl, rfl, rfl⟩

theorem length_sliceLast {α : Type} (k : ℕ) (l : List α) :
    (sliceLast k l).length = min l.length k := by
  simp [sliceLast]
  omega

theorem sliceLast_sliceLast {α : Type} (a b : ℕ) (l : List α) :
    sliceLast a (sliceLast b l) = sliceLast (min a b) l := by
  simp only [sliceLast, List.drop_drop, List.length_drop]
  congr 1
  omega

theorem appendAll_nil_eq_sliceLast {α : Type} (es : List α) :
    appendAll [] es = sliceLast 500 es := by
  induction es using List.reverseRecOn with
  | nil => simp [appendAll, sliceLast]
  | append_singleton es e ih =>
    rw [appendAll, List.foldl_append, List.foldl_cons, List.foldl_nil,
      ← appendAll, ih, appendHistory, sliceLast_sliceLast]
    have hmin : min 499 500 = 499 := by norm_num
    rw [hmin]
    simp only [sliceLast, List.length_append, List.length_singleton,
      List.drop_append_eq_append_drop]
    have h1 : es.length + 1 - 500 - es.length = 0 := by omega
    have h2 : es.length + 1 - 500 = es.length - 499 := by omega
    rw [h1, h2, List.drop_zero]

/-- C3: each append leaves at most 500 entries in the history buffer, and
after 501 appends of distinct entries into an empty buffer the earliest
appended entry is absent (FIFO eviction of the oldest). -/
theorem historyBuffer_capacity_fifo :
    (∀ (prev : List ℕ) (e : ℕ), (appendHistory prev e).length ≤ 500) ∧
    (∀ (e : ℕ) (es : List ℕ), es.length = 500 → e ∉ es →
      (appendAll ([] : List ℕ) (e :: es)).length ≤ 500 ∧
        e ∉ appendAll ([] : List ℕ) (e :: es)) := by
  constructor
  · intro prev e
    simp only [appendHistory, List.length_append, length_sliceLast,
      List.length_singleton]
    omega
  · intro e es hlen hmem
    have h : appendAll ([] : List ℕ) (e :: es) = es := by
      rw [appendAll_nil_eq_sliceLast]
      simp only [sliceLast, List.length_cons, hlen]
      norm_num
    rw [h, hlen]
    exact ⟨le_refl 500, hmem⟩

/-- Witness for C3: appending 501 distinct entries (500 followed by
0..499) into the empty buffer keeps at most 500 entries and evicts the
first appended entry 500. -/
theorem historyBuffer_capacity_fifo_witness :
    (appendAll ([] : List ℕ) ((500 : ℕ) :: List.range 500)).length ≤ 500 ∧
      (500 : ℕ) ∉ appendAll ([] : List ℕ) ((500 : ℕ) :: List.range 500) :=
  historyBuffer_capacity_fifo.2 500 (List.range 500) (by simp) (by simp)

theorem uiRun_no_timer_inv (es : List UiEvent) (s0 s : UiState)
    (h0 : uiInv s0) (hes : UiEvent.timerFire ∉ es)
    (h : uiRun s0 es = some s) : uiInv s := by
  induction es generalizing s0 with
  | nil =>
    simp only [uiRun, Option.some.injEq] at h
    subst h
    exact h0
  | cons e es ih =>
    have htl : UiEvent.timerFire ∉ es :=
      fun hm => hes (List.mem_cons_of_mem _ hm)
    simp only [uiRun] at h
    cases e with
    | timerFire => exact absurd (List.mem_cons_self _ _) hes
    | buttonClick =>
      by_cases hl : s0.loading
      · simp [uiStep, hl] at h
      · simp only [uiStep, hl, if_false, Option.some_bind] at h
        refine ih ⟨true, s0.inFlight + 1⟩ ?_ htl h
        unfold uiInv at h0 ⊢
        simp only [hl, if_false] at h0
        simp [h0]
    | complete =>
      by_cases hz : s0.inFlight = 0
      · simp [uiStep, hz] at h
      · simp only [uiStep, hz, if_false, Option.some_bind] at h
        refine ih ⟨false, s0.inFlight - 1⟩ ?_ htl h
        unfold uiInv at h0 ⊢
        by_cases hl : s0.loading <;> simp [hl] at h0 <;> simp [h0]

/-- C2 counterexample: two timer firings with no completion in between are
a valid event sequence of the frontend (the interval invokes refreshData
with no guard), and they leave two refresh cycles in flight at once, so
two overlapping sets of provider calls do execute simultaneously. -/
theorem refresh_overlap_counterexample :
    uiRun uiInit [UiEvent.timerFire, UiEvent.timerFire] =
      some ⟨true, 2⟩ ∧ 1 < (2 : ℕ) :=
  ⟨rfl, by norm_num⟩

/-- C2 amended: the at-most-one-in-flight guard exists only on the button
path — along any event sequence that contains no timer firing, at most one
refresh cycle is ever in flight, because the button is disabled exactly
while loading. -/
theorem button_refreshes_never_overlap (es : List UiEvent) (s : UiState)
    (hes : UiEvent.timerFire ∉ es) (h : uiRun uiInit es = some s) :
    s.inFlight ≤ 1 := by
  have hinv := uiRun_no_timer_inv es uiInit s (by simp [uiInv, uiInit]) hes h
  unfold uiInv at hinv
  split at hinv <;> omega

/-- Witness for C2 amended: click, completion, click again. -/
theorem button_refreshes_never_overlap_witness :
    (⟨true, 1⟩ : UiState).inFlight ≤ 1 :=
  button_refreshes_never_overlap
    [UiEvent.buttonClick, UiEvent.complete, UiEvent.buttonClick]
    ⟨true, 1⟩ (by decide) rfl

/-- C5 counterexample: the refresh response documented by the repository
has no succeeded field and no failed field. -/
theorem refreshOutcome_fields_missing :
    refreshResponseDoc.lookup "succeeded" = none ∧
      refreshResponseDoc.lookup "failed" = none :=
  ⟨rfl, rfl⟩

/-- C5 amended: the refresh endpoint's documented response carries a
boolean success flag, a saved_count, and a timestamp — not succeeded and
failed counts — and it has no data field, which is what the frontend's
refreshData reads the wallet list from. -/
theorem refresh_response_shape :
    refreshResponseDoc.lookup "success" = some (PyVal.pbool true) ∧
    refreshResponseDoc.lookup "saved_count" = some (PyVal.num 2) ∧
    (refreshResponseDoc.lookup "timestamp").isSome = true ∧
    refreshResponseDoc.lookup "data" = none :=
  ⟨rfl, rfl, rfl, rfl⟩

/-- C6: the frontend's only refresh trigger, refreshData, issues its
request with the fetch default method GET, not POST, to the refresh URL —
diverging from the repository's own API document, which specifies POST
api-portfolio-refresh. -/
theorem refresh_trigger_uses_get :
    refreshRequest.method = "GET" ∧ refreshRequest.method ≠ "POST" ∧
      refreshRequest.url = "http://localhost:8405/api/portfolio/refresh" := by
  refine ⟨rfl, ?_, rfl⟩
  decide

/-- C7 counterexample: with one configured wallet of id 1 and proxy
address 0xA, a history entry whose wallets record is keyed by the wallet
id contributes nothing to the chart row, while the same value keyed by the
proxy address becomes the wallet_1 series — so the per-wallet mapping the
frontend consumes is not keyed by the wallet identifier. -/
theorem perWallet_keying_counterexample :
    chartEntryWallets [⟨"1", "W1", "0xA"⟩] ⟨0, 5, [("1", 5)]⟩ = [] ∧
      chartEntryWallets [⟨"1", "W1", "0xA"⟩] ⟨0, 5, [("0xA", 5)]⟩ =
        [("wallet_1", 5)] :=
  ⟨rfl, rfl⟩

theorem chartEntryWalletsAux_congr (i : ℕ) (cfgs : List WalletConfig)
    (h1 h2 : HistoryEntry)
    (hk : ∀ cfg ∈ cfgs, h1.wallets.lookup cfg.proxy_address =
      h2.wallets.lookup cfg.proxy_address) :
    chartEntryWalletsAux i cfgs h1 = chartEntryWalletsAux i cfgs h2 := by
  induction cfgs generalizing i with
  | nil => rfl
  | cons cfg cfgs ih =>
    have hhd := hk cfg (List.mem_cons_self _ _)
    have htl : ∀ c ∈ cfgs, h1.wallets.lookup c.proxy_address =
        h2.wallets.lookup c.proxy_address :=
      fun c hc => hk c (List.mem_cons_of_mem _ hc)
    simp only [chartEntryWalletsAux, hhd]
    cases h2.wallets.lookup cfg.proxy_address with
    | none => exact ih (i + 1) htl
    | some v => rw [ih (i + 1) htl]

/-- C7 amended: each HistoryEntry the frontend consumes has the shape
timestamp, total, wallets — and the chart rows built from it are fully
determined by looking the wallets record up at the configured proxy
addresses: two entries agreeing at every configured proxy address yield
identical chart rows. -/
theorem chart_series_keyed_by_proxy_address (cfgs : List WalletConfig)
    (h1 h2 : HistoryEntry)
    (hk : ∀ cfg ∈ cfgs, h1.wallets.lookup cfg.proxy_address =
      h2.wallets.lookup cfg.proxy_address) :
    chartEntryWallets cfgs h1 = chartEntryWallets cfgs h2 :=
  chartEntryWalletsAux_congr 0 cfgs h1 h2 hk

/-- Witness for C7 amended: two entries with syntactically equal wallets
records but different timestamps and totals give the same chart row. -/
theorem chart_series_keyed_by_proxy_address_witness :
    chartEntryWallets [⟨"1", "W1", "0xA"⟩] ⟨0, 5, [("0xA", 5)]⟩ =
      chartEntryWallets [⟨"1", "W1", "0xA"⟩] ⟨9, 7, [("0xA", 5)]⟩ :=
  chart_series_keyed_by_proxy_address [⟨"1", "W1", "0xA"⟩]
    ⟨0, 5, [("0xA", 5)]⟩ ⟨9, 7, [("0xA", 5)]⟩ (fun _ _ => rfl)

/-- C8: before any refresh has been committed the cache is empty, the
cached endpoint then returns a response with an empty wallet list (and no
error: the endpoint is a total function of the cache), and the frontend's
loadCachedData stores the empty list and leaves lastUpdated untouched. -/
theorem cached_before_refresh_empty (st : FrontendState) :
    (cachedEndpoint []).wallets = [] ∧
      loadCachedApply (some (cachedEndpoint []).wallets) st =
        ⟨[], st.lastUpdated⟩ :=
  ⟨rfl, rfl⟩

/-- C9 counterexample: a 200 response whose body is a JSON object without
a value field makes get_positions_value raise an uncaught TypeError
(float of None), instead of yielding a failure result. -/
theorem positions_provider_uncaught_counterexample :
    get_positions_value 200 (PyVal.dict [("foo", PyVal.num 1)]) =
      Except.error PyError.typeError :=
  rfl

/-- C9 amended: get_positions_value normalizes a non-200 status to the
failure result None without raising, normalizes both accepted 200 shapes —
an object with a numeric value field, and a list containing such an
object — to that numeric value, and normalizes an unrecognized scalar
shape to None; but a 200 object without a value field raises an uncaught
TypeError rather than yielding a failure result. -/
theorem positions_value_normalization (status : ℕ) (body : PyVal) (q : ℚ)
    (d : List (String × PyVal)) (hs : status ≠ 200)
    (hd : d.lookup "value" = some (PyVal.num q)) :
    get_positions_value status body = Except.ok none ∧
    get_positions_value 200 (PyVal.dict d) = Except.ok (some q) ∧
    get_positions_value 200 (PyVal.list [PyVal.dict d]) =
      Except.ok (some q) ∧
    get_positions_value 200 (PyVal.pstr "oops") = Except.ok none := by
  refine ⟨?_, ?_, ?_, rfl⟩
  · simp [get_positions_value, hs]
  · simp [get_positions_value, dictGet, hd, floatPy, Except.map]
  · simp [get_positions_value, firstValueItem, dictGet, hd, floatPy,
      Except.map]

/-- Witness for C9 amended at status 404 and a concrete value object. -/
theorem positions_value_normalization_witness :
    get_positions_value 404 (PyVal.dict []) = Except.ok none ∧
    get_positions_value 200 (PyVal.dict [("value", PyVal.num 5)]) =
      Except.ok (some 5) ∧
    get_positions_value 200
        (PyVal.list [PyVal.dict [("value", PyVal.num 5)]]) =
      Except.ok (some 5) ∧
    get_positions_value 200 (PyVal.pstr "oops") = Except.ok none :=
  positions_value_normalization 404 (PyVal.dict []) 5
    [("value", PyVal.num 5)] (by decide) rfl

end PortfolioChecker
